import Mathlib

/-!
Verification of emilib's `al_lib` (a wrapper around OpenAL for playing sounds)
against its natural-language specification.

The repository provides the header `src/emilib/al_lib.hpp`: it declares the
classes `Sound` (a loaded, hardware-resident sound buffer), `Source` (a
hardware playback voice with a state machine and spatial/gain parameters),
`Listener`, and `SoundMngr` (device/context owner, name-keyed sound cache and
bounded source pool).  The method bodies live in `al_lib.cpp`, which is not
part of the repository snapshot; wherever a body is missing, the corresponding
Lean definition is modelled from the specification and says so in its doc
comment.  Hardware effects (OpenAL calls) are represented explicitly: the
hardware registers a voice would hold are fields of `Source`, and resource
release is an explicit event trace.

Machine floats of the C++ code are modelled as rationals (`Rat`): the claims
about them concern clamping and default values, which are exact.
-/

namespace al

/-- Resource events emitted towards the OpenAL device: releasing a hardware
buffer, releasing a hardware voice (an AL source), destroying the context and
closing the device. -/
inductive ALEvent
  | releaseBuffer (id : Nat)
  | releaseVoice (handle : Nat)
  | destroyContext
  | destroyDevice
  deriving DecidableEq, Repr

/-- `al::Sound` from `al_lib.hpp` (lines 30-51): a loaded sound, holding a
debug name, the hardware buffer handle (`_buffer_id`, 0 meaning "no hardware
resource owned") and the decoded size in bytes. -/
structure Sound where
  debug_name : String
  buffer_id : Nat
  size_bytes : Nat
  deriving DecidableEq, Repr

/-- The move constructor `Sound(Sound&&)` from the header (line 35): the
target takes over the debug name, buffer handle and size, and the moved-from
object is left with `_buffer_id = 0` and `_size_bytes = 0`.  Returns the pair
(moved-to, moved-from). -/
def Sound.move (o : Sound) : Sound × Sound :=
  (⟨o.debug_name, o.buffer_id, o.size_bytes⟩, ⟨o.debug_name, 0, 0⟩)

/-- Modelled from the spec: the body of `Sound::~Sound` is not in `src/`.
Spec §3/§4.1: "a handle of 0/null means no hardware resource owned";
"Destruction releases the hardware buffer exactly once; a buffer that has been
moved-from or already released is a no-op on destruction."  The destructor is
modelled as the trace of hardware-release events it emits. -/
def Sound.destroy (s : Sound) : List ALEvent :=
  if s.buffer_id = 0 then [] else [ALEvent.releaseBuffer s.buffer_id]

/-- `al::Source::State` from the header (lines 59-65). -/
inductive State
  | INITIAL
  | PLAYING
  | PAUSED
  | STOPPED
  deriving DecidableEq, Repr

/-- Modelled from the spec: effect of `play()` on the voice state (body not in
`src/`).  Spec §4.2: `INITIAL --play()--> PLAYING`, `PAUSED --play()-->
PLAYING`; playing always moves the voice to PLAYING. -/
def State.afterPlay (s : State) : State := State.PLAYING

/-- Modelled from the spec: effect of `pause()` on the voice state (body not
in `src/`).  Spec §4.2/§8: `PLAYING --pause()--> PAUSED`; from INITIAL (and
any non-playing state) `pause()` is a no-op. -/
def State.afterPause : State → State
  | State.PLAYING => State.PAUSED
  | s => s

/-- Modelled from the spec: effect of `stop()` on the voice state (body not in
`src/`).  Spec §4.2/§8: `PLAYING|PAUSED --stop()--> STOPPED`; from INITIAL
`stop()` is a no-op. -/
def State.afterStop : State → State
  | State.PLAYING => State.STOPPED
  | State.PAUSED => State.STOPPED
  | s => s

/-- Modelled from the spec: effect of `rewind()` on the voice state (body not
in `src/`).  Spec §4.2/§8: `STOPPED|PAUSED --rewind()--> INITIAL`; from
PLAYING, `rewind()` transitions to INITIAL, stopping playback immediately. -/
def State.afterRewind (s : State) : State := State.INITIAL

/-- `al::Source` from the header (lines 56-151).  The C++ members are
`_source` (the hardware voice handle), `_sound` (the bound shared sound
reference, modelled as the optional buffer id it designates) and
`_gain = 1` (member initializer, line 150).  `al_state` and `al_pitch` model
the corresponding registers of the hardware voice, which the C++ code reads
and writes through OpenAL calls. -/
structure Source where
  _source : Nat
  _sound : Option Nat := none
  _gain : Rat := 1
  al_pitch : Rat := 1
  al_state : State := State.INITIAL
  deriving DecidableEq

/-- Modelled from the spec: `Source::Source()` (body not in `src/`) allocates
a hardware voice; the fresh source has no bound sound, default gain 1 (header
member initializer, line 150) and is in the INITIAL state. -/
def Source.init (handle : Nat) : Source :=
  { _source := handle }

/-- Modelled from the spec: `Source::state()` polls the hardware voice state
(body not in `src/`). -/
def Source.state (s : Source) : State := s.al_state

/-- Modelled from the spec: `Source::play()` (body not in `src/`). -/
def Source.play (s : Source) : Source := { s with al_state := s.al_state.afterPlay }

/-- Modelled from the spec: `Source::pause()` (body not in `src/`). -/
def Source.pause (s : Source) : Source := { s with al_state := s.al_state.afterPause }

/-- Modelled from the spec: `Source::stop()` (body not in `src/`). -/
def Source.stop (s : Source) : Source := { s with al_state := s.al_state.afterStop }

/-- Modelled from the spec: `Source::rewind()` (body not in `src/`). -/
def Source.rewind (s : Source) : Source := { s with al_state := s.al_state.afterRewind }

/-- Modelled from the spec: `Source::set_sound(Sound_SP)` (body not in
`src/`).  Spec §4.2: "Setting a new sound while PLAYING stops current playback
first"; "replaces the bound reference; releases the prior reference".  Returns
the updated source together with the released prior reference. -/
def Source.set_sound (s : Source) (snd : Option Nat) : Source × Option Nat :=
  let s1 := if s.al_state = State.PLAYING then s.stop else s
  ({ s1 with _sound := snd }, s._sound)

/-- Modelled from the spec: `Source::sound()` returns the bound reference. -/
def Source.sound (s : Source) : Option Nat := s._sound

/-- Modelled from the spec: `Source::set_gain` (body not in `src/`); gain is
not clamped ("gain may exceed 1", spec §4.2). -/
def Source.set_gain (s : Source) (g : Rat) : Source := { s with _gain := g }

/-- Modelled from the spec: `Source::gain()` returns the stored `_gain`. -/
def Source.gain (s : Source) : Rat := s._gain

/-- Modelled from the spec: pitch values are clamped to the interval [0,2]
(header doc on `set_pitch`, line 88; spec §4.2). -/
def clampPitch (v : Rat) : Rat := min 2 (max 0 v)

/-- Modelled from the spec: `Source::set_pitch` (body not in `src/`) writes
the clamped pitch to the hardware voice. -/
def Source.set_pitch (s : Source) (v : Rat) : Source := { s with al_pitch := clampPitch v }

/-- Modelled from the spec: `Source::pitch()` reads the hardware voice
pitch. -/
def Source.pitch (s : Source) : Rat := s.al_pitch

/-- `al::SoundMngr::DistanceModel` from the header (lines 204-209). -/
inductive DistanceModel
  | NONE
  | INVERSE_DISTANCE
  | INVERSE_DISTANCE_CLAMPED
  deriving DecidableEq, Repr

/-- The name-keyed sound cache `SoundMap` (header line 239), modelled as an
association list with unique keys. -/
def findSound : List (String × Sound) → String → Option Sound
  | [], _ => none
  | (k, snd) :: rest, n => if k = n then some snd else findSound rest n

/-- `al::SoundMngr` from the header (lines 178-249).  Members: the sound
directory, the device and context handles (modelled as the booleans
`device_ok` / `context_ok`: whether opening the device and creating the
context succeeded, i.e. whether the pointers are non-null), the cache `_map`
and the source pool `_sources`.  The global OpenAL settings (doppler velocity
344, doppler factor 1, distance model INVERSE_DISTANCE by default, spec §4.5)
are context-wide hardware state and modelled as fields.  `decodeLog` records
every call made to the external decoder collaborator, and `nextBufferId`
models the allocation of fresh (nonzero) hardware buffer handles. -/
structure SoundMngr where
  _sfx_dir : String
  device_ok : Bool
  context_ok : Bool
  _map : List (String × Sound) := []
  _sources : List Source := []
  doppler_vel : Rat := 344
  doppler_factor : Rat := 1
  dist_model : DistanceModel := DistanceModel.INVERSE_DISTANCE
  decodeLog : List String := []
  nextBufferId : Nat := 1
  deriving DecidableEq

/-- Modelled from the spec: `SoundMngr::SoundMngr(sfx_dir)` (body not in
`src/`) opens the device and creates the context, either of which may fail
(`devOk`, `ctxOk`; the context cannot succeed without the device); on success
the channel pool is populated up front with capacity `n`, the
hardware-reported maximum source count (`Source::max_sources`, spec §4.3). -/
def mkSoundMngr (sfx_dir : String) (devOk ctxOk : Bool) (n : Nat) : SoundMngr :=
  let ctx := devOk && ctxOk
  { _sfx_dir := sfx_dir
    device_ok := devOk
    context_ok := ctx
    _sources := if ctx then (List.range n).map Source.init else [] }

/-- Modelled from the spec: `SoundMngr::is_working()` (body not in `src/`) is
true iff device and context construction both succeeded (spec §4.5). -/
def SoundMngr.is_working (m : SoundMngr) : Bool := m.device_ok && m.context_ok

/-- Modelled from the spec: `SoundMngr::load_sound(sound_name, is_hot)` (body
not in `src/`), the cache's resolve-or-load (spec §4.4): on hit it returns the
shared cached reference without touching the decoder; on miss it invokes the
external decoder collaborator `dec` (recorded in `decodeLog`; `dec` returns
the decoded size on success, `none` on a decode error), uploads into a fresh
hardware buffer and inserts on success, and propagates the failure without
caching it.  `is_hot` only affects diagnostics, not caching behaviour. -/
def SoundMngr.load_sound (dec : String → Option Nat) (m : SoundMngr)
    (sound_name : String) (is_hot : Bool) : Option Sound × SoundMngr :=
  match findSound m._map sound_name with
  | some snd => (some snd, m)
  | none =>
    let m1 := { m with decodeLog := m.decodeLog ++ [sound_name] }
    match dec sound_name with
    | some sz =>
      let snd : Sound := ⟨sound_name, m1.nextBufferId, sz⟩
      (some snd, { m1 with _map := m1._map ++ [(sound_name, snd)],
                           nextBufferId := m1.nextBufferId + 1 })
    | none => (none, m1)

/-- Modelled from the spec: `SoundMngr::get_source()` combined with the
binding done by `play` (bodies not in `src/`).  Spec §4.3: `acquire` "returns
an existing channel not currently PLAYING; if all are PLAYING, policy is to
return null (reject new playback) rather than steal a playing voice"; the
acquired channel is bound to the buffer (`set_sound`) and transitioned to
PLAYING (spec §4.5).  Returns the index of the acquired channel (the shared
reference handed to the caller) and the updated pool. -/
def acquire_play (buf : Nat) : List Source → Option Nat × List Source
  | [] => (none, [])
  | s :: rest =>
    if s.al_state = State.PLAYING then
      ((acquire_play buf rest).1.map (fun i => i + 1),
       s :: (acquire_play buf rest).2)
    else
      (some 0, ((s.set_sound (some buf)).1).play :: rest)

/-- Modelled from the spec: `SoundMngr::play(sound_name)` (body not in
`src/`).  Spec §4.5: composes resolve-or-load with pool acquisition, binds and
transitions to PLAYING; returns null on cache-load failure or pool
exhaustion; on a non-working manager it is a safe no-op reporting failure. -/
def SoundMngr.play (dec : String → Option Nat) (m : SoundMngr)
    (sound_name : String) : Option Nat × SoundMngr :=
  if m.is_working then
    let res := m.load_sound dec sound_name true
    match res.1 with
    | some snd =>
      let ar := acquire_play snd.buffer_id res.2._sources
      (ar.1, { res.2 with _sources := ar.2 })
    | none => (none, res.2)
  else (none, m)

/-- Modelled from the spec: `SoundMngr::prefetch(sound_name)` (body not in
`src/`): resolve-or-load, discarding the returned reference (spec §4.4); a
safe no-op on a non-working manager. -/
def SoundMngr.prefetch (dec : String → Option Nat) (m : SoundMngr)
    (sound_name : String) : SoundMngr :=
  if m.is_working then (m.load_sound dec sound_name false).2 else m

/-- Modelled from the spec: `SoundMngr::prefetch_all(sub_folder)` (body not in
`src/`): the external filesystem collaborator lists the files (`files`), and
each is prefetched in turn, continuing past individual failures (spec
§4.4). -/
def SoundMngr.prefetch_all (dec : String → Option Nat) (files : List String)
    (m : SoundMngr) : SoundMngr :=
  files.foldl (fun acc n => acc.prefetch dec n) m

/-- Modelled from the spec: `SoundMngr::set_doppler_vel` (body not in `src/`),
a context-wide setting; a safe no-op on a non-working manager (spec §4.5,
§7). -/
def SoundMngr.set_doppler_vel (m : SoundMngr) (v : Rat) : SoundMngr :=
  if m.is_working then { m with doppler_vel := v } else m

/-- Modelled from the spec: `SoundMngr::set_doppler_factor` (body not in
`src/`); a safe no-op on a non-working manager. -/
def SoundMngr.set_doppler_factor (m : SoundMngr) (f : Rat) : SoundMngr :=
  if m.is_working then { m with doppler_factor := f } else m

/-- Modelled from the spec: `SoundMngr::set_distance_model` (body not in
`src/`); a safe no-op on a non-working manager. -/
def SoundMngr.set_distance_model (m : SoundMngr) (dm : DistanceModel) : SoundMngr :=
  if m.is_working then { m with dist_model := dm } else m

/-- The buffer references held by the pool's channels (each channel's bound
sound, if any). -/
def boundRefs (srcs : List Source) : List Nat := srcs.filterMap (fun s => s._sound)

/-- The buffer references held by the cache (one per entry). -/
def cacheRefs (mp : List (String × Sound)) : List Nat := mp.map (fun e => e.2.buffer_id)

/-- Every buffer reference held by the manager: channel-bound references
followed by cache references. -/
def allRefs (m : SoundMngr) : List Nat := boundRefs m._sources ++ cacheRefs m._map

/-- Modelled from the spec: destruction of the source pool during
`SoundMngr::~SoundMngr` (body not in `src/`).  Each channel's hardware voice
is deleted and its bound buffer reference dropped; a buffer's hardware handle
is released exactly when its last reference is dropped (reference counting,
spec §3).  `pending` is the list of references still held by later holders
(here: the cache, which is cleared after the pool). -/
def releaseSources : List Source → List Nat → List ALEvent
  | [], _ => []
  | s :: rest, pending =>
    ALEvent.releaseVoice s._source ::
      ((match s._sound with
        | none => []
        | some id =>
          if id ∈ boundRefs rest ++ pending then [] else [ALEvent.releaseBuffer id])
       ++ releaseSources rest pending)

/-- Modelled from the spec: clearing the sound cache during
`SoundMngr::~SoundMngr`; each entry's reference is dropped, releasing the
hardware buffer at the last reference. -/
def releaseCache : List (String × Sound) → List ALEvent
  | [] => []
  | (_, snd) :: rest =>
    (if snd.buffer_id ∈ cacheRefs rest then [] else [ALEvent.releaseBuffer snd.buffer_id])
      ++ releaseCache rest

/-- Modelled from the spec: `SoundMngr::~SoundMngr` (body not in `src/`) as
the trace of hardware events it emits.  Spec §4.5: "all channels and cached
buffers must be released before the context is destroyed, and the context
before the device; the manager's destructor must enforce this ordering
regardless of the order its members would otherwise be destroyed in" — hence
the explicit order: pool first, then cache, then context, then device. -/
def SoundMngr.teardown (m : SoundMngr) : List ALEvent :=
  releaseSources m._sources (cacheRefs m._map)
    ++ releaseCache m._map
    ++ (if m.context_ok then [ALEvent.destroyContext] else [])
    ++ (if m.device_ok then [ALEvent.destroyDevice] else [])

/-- Iterated `play` of the same sound: `plays dec name k m` performs `k`
successive calls `play(name)` with no channel released in between, returning
the list of results in order together with the final manager state. -/
def plays (dec : String → Option Nat) (name : String) :
    Nat → SoundMngr → List (Option Nat) × SoundMngr
  | 0, m => ([], m)
  | k + 1, m =>
    ((m.play dec name).1 :: (plays dec name k (m.play dec name).2).1,
     (plays dec name k (m.play dec name).2).2)

/-- The number of channels in the pool that are not currently PLAYING (the
channels `acquire` may hand out). -/
def freeCount : List Source → Nat
  | [] => 0
  | s :: rest => (if s.al_state = State.PLAYING then 0 else 1) + freeCount rest

/-- A decoder collaborator that succeeds on every name (decoded size 4), used
to evaluate theorems at concrete inputs. -/
def wDec : String → Option Nat := fun _ => some 4

/-- A decoder collaborator that fails on every name, used to evaluate
theorems at concrete inputs. -/
def wDecFail : String → Option Nat := fun _ => none

/-- A concrete manager whose device failed to open (non-working). -/
def wBroken : SoundMngr := { _sfx_dir := "sfx", device_ok := false, context_ok := false }

/-- A concrete working manager holding buffer 1 both in the cache and bound
to a playing channel, used to evaluate the teardown theorem. -/
def wMngr : SoundMngr :=
  { _sfx_dir := "sfx"
    device_ok := true
    context_ok := true
    _map := [("a.wav", ⟨"a.wav", 1, 4⟩)]
    _sources := [{ _source := 0, _sound := some 1, al_state := State.PLAYING },
                 { _source := 1 }] }

-- ---------------------------------------------------------------------------
-- Theorems
-- ---------------------------------------------------------------------------

/-- Looking a name up after appending a fresh entry for it finds that
entry. -/
theorem findSound_append (l : List (String × Sound)) (n : String) (b : Sound)
    (h : findSound l n = none) : findSound (l ++ [(n, b)]) n = some b := by
  induction l with
  | nil => simp [findSound]
  | cons e rest ih =>
    obtain ⟨k, snd⟩ := e
    by_cases hk : k = n
    · simp [findSound, hk] at h
    · simp only [List.cons_append, findSound, hk, if_false] at h ⊢
      exact ih h

/-- `load_sound` on a cache hit returns the cached sound and leaves the
manager unchanged: no decode call is issued. -/
theorem load_sound_hit (dec : String → Option Nat) (m : SoundMngr)
    (name : String) (hot : Bool) (b : Sound)
    (hb : findSound m._map name = some b) :
    m.load_sound dec name hot = (some b, m) := by
  simp [SoundMngr.load_sound, hb]

/-- `load_sound` on a cache miss with a successful decode: one decode call is
logged, a fresh buffer is allocated and the new sound is inserted into the
cache. -/
theorem load_sound_miss (dec : String → Option Nat) (m : SoundMngr)
    (name : String) (hot : Bool) (sz : Nat)
    (hnew : findSound m._map name = none) (hsz : dec name = some sz) :
    m.load_sound dec name hot =
      (some ⟨name, m.nextBufferId, sz⟩,
       { m with decodeLog := m.decodeLog ++ [name],
                _map := m._map ++ [(name, ⟨name, m.nextBufferId, sz⟩)],
                nextBufferId := m.nextBufferId + 1 }) := by
  simp [SoundMngr.load_sound, hnew, hsz]

/-- `load_sound` on a cache miss with a failing decode: the decode call is
logged, the failure is propagated and nothing is cached. -/
theorem load_sound_fail (dec : String → Option Nat) (m : SoundMngr)
    (name : String) (hot : Bool)
    (hnew : findSound m._map name = none) (hfail : dec name = none) :
    m.load_sound dec name hot =
      (none, { m with decodeLog := m.decodeLog ++ [name] }) := by
  simp [SoundMngr.load_sound, hnew, hfail]

/-- On a working manager, `play` composes a successful load with pool
acquisition. -/
theorem play_eq_of_load_some (dec : String → Option Nat) (m : SoundMngr)
    (name : String) (b : Sound) (m2 : SoundMngr)
    (hw : m.is_working = true)
    (hl : m.load_sound dec name true = (some b, m2)) :
    m.play dec name =
      ((acquire_play b.buffer_id m2._sources).1,
       { m2 with _sources := (acquire_play b.buffer_id m2._sources).2 }) := by
  simp [SoundMngr.play, hw, hl]

/-- On a working manager, `play` propagates a load failure as null. -/
theorem play_eq_of_load_none (dec : String → Option Nat) (m : SoundMngr)
    (name : String) (m2 : SoundMngr)
    (hw : m.is_working = true)
    (hl : m.load_sound dec name true = (none, m2)) :
    m.play dec name = (none, m2) := by
  simp [SoundMngr.play, hw, hl]

/-- C3: the channel state machine obeys exactly the specified transitions:
from INITIAL, `play()` yields PLAYING while `pause()` and `stop()` are no-ops;
from PLAYING, `pause()` yields PAUSED, `stop()` yields STOPPED and `rewind()`
yields INITIAL (stopping playback immediately); from PAUSED, `play()` yields
PLAYING, `stop()` yields STOPPED and `rewind()` yields INITIAL; from STOPPED,
`rewind()` yields INITIAL. -/
theorem c3_state_machine (s : Source) :
    (s.state = State.INITIAL →
      s.play.state = State.PLAYING ∧ s.pause.state = State.INITIAL ∧
      s.stop.state = State.INITIAL) ∧
    (s.state = State.PLAYING →
      s.pause.state = State.PAUSED ∧ s.stop.state = State.STOPPED ∧
      s.rewind.state = State.INITIAL) ∧
    (s.state = State.PAUSED →
      s.play.state = State.PLAYING ∧ s.stop.state = State.STOPPED ∧
      s.rewind.state = State.INITIAL) ∧
    (s.state = State.STOPPED → s.rewind.state = State.INITIAL) := by
  obtain ⟨h, snd, g, p, st⟩ := s
  cases st <;>
    simp [Source.state, Source.play, Source.pause, Source.stop, Source.rewind,
      State.afterPlay, State.afterPause, State.afterStop, State.afterRewind]

/-- Witness for C3 at a concrete channel: a fresh source is INITIAL and
playing it yields PLAYING. -/
theorem c3_witness : (Source.init 0).play.state = State.PLAYING :=
  ((c3_state_machine (Source.init 0)).1 rfl).1

/-- C7: `set_sound` on a channel replaces the bound reference with the new
one, returns (releases) the prior reference, and if the channel was PLAYING it
stops the current playback before the new buffer is bound: the resulting
channel is never PLAYING, so a channel never plays two buffers
concurrently. -/
theorem c7_set_sound_rebinding (s : Source) (snd : Option Nat) :
    (s.set_sound snd).1.sound = snd ∧
    (s.set_sound snd).2 = s.sound ∧
    (s.set_sound snd).1.state ≠ State.PLAYING ∧
    (s.state = State.PLAYING → (s.set_sound snd).1.state = State.STOPPED) ∧
    (s.state ≠ State.PLAYING → (s.set_sound snd).1.state = s.state) := by
  obtain ⟨h, osnd, g, p, st⟩ := s
  cases st <;>
    simp [Source.set_sound, Source.stop, Source.sound, Source.state,
      State.afterStop]

/-- Witness for C7 at a concrete channel: rebinding a PLAYING channel leaves
it STOPPED. -/
theorem c7_witness : (((Source.init 3).play).set_sound (some 7)).1.state = State.STOPPED :=
  (c7_set_sound_rebinding ((Source.init 3).play) (some 7)).2.2.2.1 rfl

/-- C8: after `set_pitch v` the getter `pitch` returns `v` clamped to [0,2];
in particular an in-range value reads back unchanged, 3 reads back as 2 and
-1 reads back as 0. -/
theorem c8_pitch_clamp (s : Source) (v : Rat) :
    (s.set_pitch v).pitch = min 2 (max 0 v) ∧
    (0 ≤ v → v ≤ 2 → (s.set_pitch v).pitch = v) ∧
    (s.set_pitch 3).pitch = 2 ∧
    (s.set_pitch (-1)).pitch = 0 := by
  refine ⟨rfl, ?_, ?_, ?_⟩
  · intro h0 h2
    simp only [Source.set_pitch, Source.pitch, clampPitch]
    rw [max_eq_right h0, min_eq_right h2]
  · show clampPitch 3 = 2
    norm_num [clampPitch]
  · show clampPitch (-1) = 0
    norm_num [clampPitch]

/-- Witness for C8 at a concrete input: pitch 1 is in range and reads back
as 1. -/
theorem c8_witness : ((Source.init 0).set_pitch 1).pitch = 1 :=
  (c8_pitch_clamp (Source.init 0) 1).2.1 (by norm_num) (by norm_num)

/-- C9: moving a `Sound` transfers the buffer handle to the target and leaves
the source object with handle 0, so destroying the moved-from object is a
no-op; a sound that owns a buffer releases it exactly once on destruction,
and across a move the buffer is still released exactly once in total. -/
theorem c9_sound_move_release (s : Sound) :
    (s.move).1.buffer_id = s.buffer_id ∧
    (s.move).2.buffer_id = 0 ∧
    (s.move).2.destroy = [] ∧
    (s.buffer_id ≠ 0 →
      s.destroy = [ALEvent.releaseBuffer s.buffer_id] ∧
      ((s.move).1.destroy ++ (s.move).2.destroy).count
        (ALEvent.releaseBuffer s.buffer_id) = 1) := by
  refine ⟨rfl, rfl, rfl, fun h => ⟨?_, ?_⟩⟩
  · simp [Sound.destroy, h]
  · simp [Sound.move, Sound.destroy, h]

/-- Witness for C9 at a concrete sound owning buffer 5. -/
theorem c9_witness : Sound.destroy ⟨"a", 5, 4⟩ = [ALEvent.releaseBuffer 5] :=
  ((c9_sound_move_release ⟨"a", 5, 4⟩).2.2.2 (by decide)).1

/-- C10: a freshly constructed `Source` reads back the default gain 1 (the
header's member initializer `_gain = 1`) before any `set_gain` call. -/
theorem c10_default_gain (handle : Nat) : (Source.init handle).gain = 1 := rfl

/-- C1: loading a sound a second time — via `play` after `play`, or via
`play` after `prefetch` — issues no second decode call: after the first load
the cache holds the very sound `b` that the first load produced, a subsequent
`load_sound` (as issued by a second `play`) returns that same `b` and leaves
the manager, in particular its decode log, unchanged, so decode is invoked
exactly once for the name while the entry is cached. -/
theorem c1_cache_single_decode (dec : String → Option Nat) (m : SoundMngr)
    (name : String)
    (hw : m.is_working = true) (hok : (dec name).isSome = true)
    (hnew : findSound m._map name = none) :
    ∃ b : Sound,
      (m.load_sound dec name true).1 = some b ∧
      findSound ((m.play dec name).2)._map name = some b ∧
      ((m.play dec name).2).decodeLog.count name = m.decodeLog.count name + 1 ∧
      ((m.play dec name).2).load_sound dec name true = (some b, (m.play dec name).2) ∧
      (((m.play dec name).2).play dec name).2.decodeLog = ((m.play dec name).2).decodeLog ∧
      findSound (m.prefetch dec name)._map name = some b ∧
      (m.prefetch dec name).decodeLog.count name = m.decodeLog.count name + 1 ∧
      (m.prefetch dec name).load_sound dec name true = (some b, m.prefetch dec name) ∧
      ((m.prefetch dec name).play dec name).2.decodeLog = (m.prefetch dec name).decodeLog := by
  obtain ⟨sz, hsz⟩ := Option.isSome_iff_exists.mp hok
  have hm := load_sound_miss dec m name true sz hnew hsz
  have hmf := load_sound_miss dec m name false sz hnew hsz
  have hplay := play_eq_of_load_some dec m name _ _ hw hm
  have hpre : m.prefetch dec name = (m.load_sound dec name false).2 := by
    simp [SoundMngr.prefetch, hw]
  have hfs : findSound (m._map ++ [(name, ⟨name, m.nextBufferId, sz⟩)]) name
      = some ⟨name, m.nextBufferId, sz⟩ := findSound_append _ _ _ hnew
  have h2 : findSound ((m.play dec name).2)._map name = some ⟨name, m.nextBufferId, sz⟩ := by
    rw [hplay]; exact hfs
  have h2p : findSound (m.prefetch dec name)._map name = some ⟨name, m.nextBufferId, sz⟩ := by
    rw [hpre, hmf]; exact hfs
  have hhit := load_sound_hit dec _ name true _ h2
  have hhitp := load_sound_hit dec _ name true _ h2p
  have hw1 : ((m.play dec name).2).is_working = true := by rw [hplay]; exact hw
  have hw1p : (m.prefetch dec name).is_working = true := by rw [hpre, hmf]; exact hw
  have hplay2 := play_eq_of_load_some dec _ name _ _ hw1 hhit
  have hplay2p := play_eq_of_load_some dec _ name _ _ hw1p hhitp
  refine ⟨⟨name, m.nextBufferId, sz⟩, by rw [hm], h2, ?_, hhit, ?_, h2p, ?_, hhitp, ?_⟩
  · rw [hplay]
    show (m.decodeLog ++ [name]).count name = m.decodeLog.count name + 1
    simp
  · rw [hplay2]
  · rw [hpre, hmf]
    show (m.decodeLog ++ [name]).count name = m.decodeLog.count name + 1
    simp
  · rw [hplay2p]

/-- Witness for C1 at a concrete input: playing a fresh name on a fresh
working manager logs exactly one decode call. -/
theorem c1_witness :
    ((mkSoundMngr "sfx" true true 2).play wDec "a.wav").2.decodeLog.count "a.wav"
      = (mkSoundMngr "sfx" true true 2).decodeLog.count "a.wav" + 1 := by
  obtain ⟨b, h⟩ := c1_cache_single_decode wDec (mkSoundMngr "sfx" true true 2) "a.wav" rfl rfl rfl
  exact h.2.2.1

/-- C4: when decoding fails, `play` returns null, the cache gains no entry
for the name (the failure is not cached), and a second `play` of the same
name retries the decode (the decode log grows again) rather than returning a
cached failure. -/
theorem c4_decode_failure_not_cached (dec : String → Option Nat) (m : SoundMngr)
    (name : String)
    (hw : m.is_working = true) (hfail : dec name = none)
    (hnew : findSound m._map name = none) :
    (m.play dec name).1 = none ∧
    (m.play dec name).2._map = m._map ∧
    findSound (m.play dec name).2._map name = none ∧
    (m.play dec name).2.decodeLog = m.decodeLog ++ [name] ∧
    ((m.play dec name).2.play dec name).1 = none ∧
    ((m.play dec name).2.play dec name).2.decodeLog
      = (m.play dec name).2.decodeLog ++ [name] := by
  have hl := load_sound_fail dec m name true hnew hfail
  have hplay := play_eq_of_load_none dec m name _ hw hl
  have hw1 : (m.play dec name).2.is_working = true := by rw [hplay]; exact hw
  have hnew1 : findSound (m.play dec name).2._map name = none := by rw [hplay]; exact hnew
  have hl2 := load_sound_fail dec ((m.play dec name).2) name true hnew1 hfail
  have hplay2 := play_eq_of_load_none dec _ name _ hw1 hl2
  refine ⟨by rw [hplay], by rw [hplay], hnew1, by rw [hplay], by rw [hplay2], ?_⟩
  rw [hplay2]

/-- Witness for C4 at a concrete input: playing an undecodable name on a
fresh working manager returns null. -/
theorem c4_witness :
    ((mkSoundMngr "sfx" true true 2).play wDecFail "missing.wav").1 = none :=
  (c4_decode_failure_not_cached wDecFail (mkSoundMngr "sfx" true true 2)
    "missing.wav" rfl rfl rfl).1

/-- Every `prefetch` on a non-working manager is a no-op, hence so is
`prefetch_all`. -/
theorem prefetch_all_no_op (dec : String → Option Nat) (m : SoundMngr)
    (hnw : m.is_working = false) :
    ∀ files : List String, m.prefetch_all dec files = m := by
  intro files
  induction files with
  | nil => rfl
  | cons f fs ih =>
    have h1 : m.prefetch dec f = m := by simp [SoundMngr.prefetch, hnw]
    unfold SoundMngr.prefetch_all at ih ⊢
    simp only [List.foldl_cons]
    rw [h1]
    exact ih

/-- C6: `is_working` is true iff both device and context construction
succeeded; and on a non-working manager, `play` reports failure (null)
without changing any state, and `prefetch`, `prefetch_all` and the global
setters are safe no-ops. -/
theorem c6_is_working_gates (sfx_dir : String) (devOk ctxOk : Bool) (n : Nat)
    (dec : String → Option Nat) (name : String) (files : List String)
    (v f : Rat) (dm : DistanceModel) (m : SoundMngr)
    (hnw : m.is_working = false) :
    ((mkSoundMngr sfx_dir devOk ctxOk n).is_working = (devOk && ctxOk)) ∧
    m.play dec name = (none, m) ∧
    m.prefetch dec name = m ∧
    m.prefetch_all dec files = m ∧
    m.set_doppler_vel v = m ∧
    m.set_doppler_factor f = m ∧
    m.set_distance_model dm = m := by
  refine ⟨?_, ?_, ?_, prefetch_all_no_op dec m hnw files, ?_, ?_, ?_⟩
  · cases devOk <;> cases ctxOk <;> rfl
  · simp [SoundMngr.play, hnw]
  · simp [SoundMngr.prefetch, hnw]
  · simp [SoundMngr.set_doppler_vel, hnw]
  · simp [SoundMngr.set_doppler_factor, hnw]
  · simp [SoundMngr.set_distance_model, hnw]

/-- Witness for C6 at a concrete input: `play` on the broken manager returns
null and leaves it unchanged. -/
theorem c6_witness : wBroken.play wDec "a.wav" = (none, wBroken) :=
  (c6_is_working_gates "sfx" false false 2 wDec "a.wav" [] 1 1
    DistanceModel.NONE wBroken rfl).2.1

/-- `load_sound` never touches the device, the context or the source pool,
and succeeds whenever the decoder does. -/
theorem load_sound_fields (dec : String → Option Nat) (m : SoundMngr)
    (name : String) (hot : Bool) :
    (m.load_sound dec name hot).2.device_ok = m.device_ok ∧
    (m.load_sound dec name hot).2.context_ok = m.context_ok ∧
    (m.load_sound dec name hot).2._sources = m._sources ∧
    ((dec name).isSome = true → ((m.load_sound dec name hot).1).isSome = true) := by
  rcases hf : findSound m._map name with _ | b
  · rcases hd : dec name with _ | sz
    · rw [load_sound_fail dec m name hot hf hd]
      simp [hd]
    · rw [load_sound_miss dec m name hot sz hf hd]
      simp
  · rw [load_sound_hit dec m name hot b hf]
    simp

/-- Pool acquisition hands out a channel exactly when some channel is not
PLAYING, and on success one more channel of the pool is PLAYING
afterwards. -/
theorem acquire_play_spec (b : Nat) (l : List Source) :
    ((acquire_play b l).1.isSome = true ↔ 0 < freeCount l) ∧
    freeCount (acquire_play b l).2 = freeCount l - 1 := by
  induction l with
  | nil => simp [acquire_play, freeCount]
  | cons s rest ih =>
    by_cases hs : s.al_state = State.PLAYING
    · have h1 := ih.1
      have h2 := ih.2
      constructor
      · simp only [acquire_play, freeCount, hs, if_pos rfl]
        simpa using h1
      · simp only [acquire_play, freeCount, hs, if_pos rfl]
        simpa using h2
    · constructor
      · simp [acquire_play, freeCount, hs]
      · simp [acquire_play, freeCount, hs, Source.play, Source.set_sound,
          State.afterPlay]

/-- One `play` step on a working manager with a decodable name: the manager
stays working, the call returns a channel iff the pool had a non-PLAYING
channel, and the number of non-PLAYING channels drops by one. -/
theorem play_step (dec : String → Option Nat) (m : SoundMngr) (name : String)
    (hw : m.is_working = true) (hok : (dec name).isSome = true) :
    (m.play dec name).2.is_working = true ∧
    ((m.play dec name).1.isSome = true ↔ 0 < freeCount m._sources) ∧
    freeCount (m.play dec name).2._sources = freeCount m._sources - 1 := by
  obtain ⟨f1, f2, f3, f4⟩ := load_sound_fields dec m name true
  obtain ⟨b, hb⟩ := Option.isSome_iff_exists.mp (f4 hok)
  have hl : m.load_sound dec name true = (some b, (m.load_sound dec name true).2) := by
    rw [← hb]
  have hplay := play_eq_of_load_some dec m name b _ hw hl
  have hiw : (m.device_ok && m.context_ok) = true := hw
  refine ⟨?_, ?_, ?_⟩
  · rw [hplay]
    show ((m.load_sound dec name true).2.device_ok
      && (m.load_sound dec name true).2.context_ok) = true
    rw [f1, f2]
    exact hiw
  · rw [hplay]
    show (acquire_play b.buffer_id (m.load_sound dec name true).2._sources).1.isSome
      = true ↔ _
    rw [f3]
    exact (acquire_play_spec b.buffer_id m._sources).1
  · rw [hplay]
    show freeCount (acquire_play b.buffer_id (m.load_sound dec name true).2._sources).2 = _
    rw [f3]
    exact (acquire_play_spec b.buffer_id m._sources).2

/-- Iterated `play` with no channel released: every call up to the initial
number of non-PLAYING channels returns a channel, and every later call
returns null. -/
theorem plays_spec (dec : String → Option Nat) (name : String)
    (hok : (dec name).isSome = true) :
    ∀ (k : Nat) (m : SoundMngr), m.is_working = true →
      (plays dec name k m).1.length = k ∧
      ∀ (i : Nat) (h : i < (plays dec name k m).1.length),
        (((plays dec name k m).1.get ⟨i, h⟩).isSome = true ↔ i < freeCount m._sources) := by
  intro k
  induction k with
  | zero =>
    intro m hw
    refine ⟨rfl, fun i h => ?_⟩
    simp [plays] at h
  | succ k ih =>
    intro m hw
    obtain ⟨hw1, hsome, hcnt⟩ := play_step dec m name hw hok
    obtain ⟨hlen, hall⟩ := ih (m.play dec name).2 hw1
    refine ⟨by simp [plays, hlen], fun i h => ?_⟩
    match i with
    | 0 =>
      show ((m.play dec name).1.isSome = true) ↔ _
      exact hsome
    | j + 1 =>
      have hj : j < (plays dec name k (m.play dec name).2).1.length := by
        simp [plays] at h
        omega
      show (((plays dec name k (m.play dec name).2).1.get ⟨j, hj⟩).isSome = true) ↔ _
      refine (hall j hj).trans ?_
      rw [hcnt]
      omega

/-- A pool freshly built from a list of voice handles has every channel
available (none is PLAYING). -/
theorem freeCount_init_pool : ∀ l : List Nat, freeCount (l.map Source.init) = l.length := by
  intro l
  induction l with
  | nil => rfl
  | cons h t ih =>
    simp [freeCount, Source.init, ih]
    omega

/-- C2: on a freshly constructed working manager whose pool has the
hardware-reported capacity `n`, issuing `play` `n + 1` times in sequence with
no channel released returns a valid (non-null) channel on exactly the first
`n` calls, and null on the `(n+1)`-th: the exhausted pool rejects rather than
stealing a playing channel. -/
theorem c2_pool_exhaustion (sfx_dir name : String) (dec : String → Option Nat)
    (n : Nat) (hok : (dec name).isSome = true) :
    (plays dec name (n + 1) (mkSoundMngr sfx_dir true true n)).1.length = n + 1 ∧
    ∀ (i : Nat) (h : i < (plays dec name (n + 1) (mkSoundMngr sfx_dir true true n)).1.length),
      (((plays dec name (n + 1) (mkSoundMngr sfx_dir true true n)).1.get
          ⟨i, h⟩).isSome = true) ↔ i < n := by
  have hfree : freeCount (mkSoundMngr sfx_dir true true n)._sources = n := by
    show freeCount ((List.range n).map Source.init) = n
    rw [freeCount_init_pool, List.length_range]
  obtain ⟨hlen, hall⟩ := plays_spec dec name hok (n + 1) (mkSoundMngr sfx_dir true true n) rfl
  refine ⟨hlen, fun i hi => ?_⟩
  rw [hall i hi, hfree]

/-- Witness for C2 at a concrete input: with pool capacity 2, the third
`play` in a row returns null. -/
theorem c2_witness :
    (((plays wDec "a.wav" 3 (mkSoundMngr "sfx" true true 2)).1.get
        ⟨2, by decide⟩).isSome = true) ↔ 2 < 2 :=
  (c2_pool_exhaustion "sfx" "a.wav" wDec 2 rfl).2 2 (by decide)

/-- Releasing the pool emits, for a given buffer id, exactly one hardware
release event iff some channel holds that buffer and no later holder
(`pending`) still references it. -/
theorem count_releaseSources (srcs : List Source) (pending : List Nat) (id : Nat) :
    (releaseSources srcs pending).count (ALEvent.releaseBuffer id)
      = if id ∈ boundRefs srcs ∧ id ∉ pending then 1 else 0 := by
  induction srcs with
  | nil => simp [releaseSources, boundRefs]
  | cons s rest ih =>
    rcases hsnd : s._sound with _ | id0
    · have hbr : boundRefs (s :: rest) = boundRefs rest := by
        simp [boundRefs, List.filterMap_cons, hsnd]
      simp only [releaseSources, hsnd, List.nil_append, List.count_cons]
      rw [ih, hbr]
      simp
    · have hbr : boundRefs (s :: rest) = id0 :: boundRefs rest := by
        simp [boundRefs, List.filterMap_cons, hsnd]
      simp only [releaseSources, hsnd, List.count_cons, List.count_append]
      rw [ih, hbr]
      by_cases hmem : id0 ∈ boundRefs rest ++ pending
      · rw [if_pos hmem]
        by_cases hid : id = id0
        · subst hid
          rcases List.mem_append.mp hmem with hm | hm
          · simp [hm]
          · simp [hm]
        · simp [hid, List.mem_cons]
      · rw [if_neg hmem]
        have h1 : id0 ∉ boundRefs rest := fun h => hmem (List.mem_append.mpr (Or.inl h))
        have h2 : id0 ∉ pending := fun h => hmem (List.mem_append.mpr (Or.inr h))
        by_cases hid : id = id0
        · subst hid
          simp [h1, h2, List.count_cons]
        · simp [hid, List.count_cons, List.mem_cons]

/-- Clearing the cache emits exactly one release event for each buffer id it
holds. -/
theorem count_releaseCache (mp : List (String × Sound)) (id : Nat) :
    (releaseCache mp).count (ALEvent.releaseBuffer id)
      = if id ∈ cacheRefs mp then 1 else 0 := by
  induction mp with
  | nil => simp [releaseCache, cacheRefs]
  | cons p rest ih =>
    obtain ⟨k, snd⟩ := p
    have hcr : cacheRefs ((k, snd) :: rest) = snd.buffer_id :: cacheRefs rest := rfl
    by_cases hmem : snd.buffer_id ∈ cacheRefs rest
    · simp only [releaseCache, if_pos hmem, List.nil_append]
      rw [ih, hcr]
      by_cases hid : id = snd.buffer_id
      · subst hid
        simp [hmem]
      · simp [hid, List.mem_cons]
    · simp only [releaseCache, if_neg hmem, List.cons_append, List.nil_append,
        List.count_cons]
      rw [ih, hcr]
      by_cases hid : id = snd.buffer_id
      · subst hid
        simp [hmem]
      · have hid2 : ¬snd.buffer_id = id := fun h => hid h.symm
        simp [hid, hid2, List.mem_cons]

/-- Every event emitted while releasing the pool is a buffer release or a
voice release. -/
theorem releaseSources_events (srcs : List Source) (pending : List Nat) :
    ∀ e ∈ releaseSources srcs pending,
      (∃ id, e = ALEvent.releaseBuffer id) ∨ (∃ h, e = ALEvent.releaseVoice h) := by
  induction srcs with
  | nil => simp [releaseSources]
  | cons s rest ih =>
    intro e he
    simp only [releaseSources, List.mem_cons, List.mem_append] at he
    rcases he with he | he
    · exact Or.inr ⟨s._source, he⟩
    rcases he with he | he
    · rcases hsnd : s._sound with _ | id0
      · rw [hsnd] at he
        simp at he
      · rw [hsnd] at he
        simp at he
        exact Or.inl ⟨id0, he.2⟩
    · exact ih e he

/-- Every event emitted while clearing the cache is a buffer release. -/
theorem releaseCache_events (mp : List (String × Sound)) :
    ∀ e ∈ releaseCache mp, ∃ id, e = ALEvent.releaseBuffer id := by
  induction mp with
  | nil => simp [releaseCache]
  | cons p rest ih =>
    obtain ⟨k, snd⟩ := p
    intro e he
    simp only [releaseCache, List.mem_append] at he
    rcases he with he | he
    · by_cases hmem : snd.buffer_id ∈ cacheRefs rest
      · simp [hmem] at he
      · simp [hmem] at he
        exact ⟨snd.buffer_id, he⟩
    · exact ih e he

/-- Releasing the pool releases every channel's hardware voice. -/
theorem releaseSources_voices (srcs : List Source) (pending : List Nat) :
    ∀ s ∈ srcs, ALEvent.releaseVoice s._source ∈ releaseSources srcs pending := by
  induction srcs with
  | nil => simp
  | cons s rest ih =>
    intro t ht
    rcases List.mem_cons.mp ht with h | h
    · subst h
      simp [releaseSources]
    · simp only [releaseSources, List.mem_cons, List.mem_append]
      exact Or.inr (Or.inr (ih t h))

/-- C5: on destruction of a working manager, every hardware buffer held by
cached sounds or by still-bound channels is released exactly once (and no
unheld buffer is released), every event before the context destruction is a
buffer or voice release — in particular every channel's voice is released
there — and the context is destroyed before the device, this ordering being
explicit in the destructor rather than inherited from member declaration
order. -/
theorem c5_teardown_order (m : SoundMngr) (hw : m.is_working = true) :
    (∀ id : Nat, m.teardown.count (ALEvent.releaseBuffer id)
        = if id ∈ allRefs m then 1 else 0) ∧
    (∃ pre, m.teardown = pre ++ [ALEvent.destroyContext, ALEvent.destroyDevice] ∧
      (∀ e ∈ pre, (∃ id, e = ALEvent.releaseBuffer id) ∨
        (∃ h, e = ALEvent.releaseVoice h)) ∧
      (∀ s ∈ m._sources, ALEvent.releaseVoice s._source ∈ pre)) := by
  have hw' : (m.device_ok && m.context_ok) = true := hw
  rw [Bool.and_eq_true] at hw'
  constructor
  · intro id
    unfold SoundMngr.teardown
    rw [hw'.1, hw'.2]
    simp only [if_pos rfl, List.count_append, count_releaseSources, count_releaseCache]
    by_cases hc : id ∈ cacheRefs m._map
    · simp [allRefs, List.mem_append, hc]
    · by_cases hb : id ∈ boundRefs m._sources
      · simp [allRefs, List.mem_append, hb, hc]
      · simp [allRefs, List.mem_append, hb, hc]
  · refine ⟨releaseSources m._sources (cacheRefs m._map) ++ releaseCache m._map,
      ?_, ?_, ?_⟩
    · unfold SoundMngr.teardown
      rw [hw'.1, hw'.2]
      simp
    · intro e he
      rcases List.mem_append.mp he with h | h
      · exact releaseSources_events _ _ e h
      · exact Or.inl (releaseCache_events _ e h)
    · intro s hs
      exact List.mem_append.mpr (Or.inl (releaseSources_voices _ _ s hs))

/-- Witness for C5 at a concrete manager (buffer 1 held both by a playing
channel and by the cache): its teardown releases buffer 1 exactly once. -/
theorem c5_witness :
    wMngr.teardown.count (ALEvent.releaseBuffer 1)
      = if 1 ∈ allRefs wMngr then 1 else 0 :=
  (c5_teardown_order wMngr rfl).1 1

end al
